import Mathlib

/-!
Verification of the codenest local command-execution agent
(`agent.js`, the standalone HTTP server embedded in the repository).

The agent is a single-file Node.js program. We shallowly embed the parts
the specification talks about:

* the command deny-list check and the `/run` handler dispatch;
* `executeCommand` and the three mutually exclusive termination paths
  (close event, error event, spawn exception);
* the process registry (a JS `Map` keyed by `Date.now().toString()`),
  with `set` / `delete` / `has` modelled as association-list operations
  preserving JS `Map` semantics (replace on existing key, append otherwise);
* the 10-minute / 5-second timeout escalation;
* `readProjectFiles` / `getProjectStructure` over an inductive
  directory-tree model of the filesystem;
* `writeProjectFile` with POSIX `path.resolve` and the string-prefix
  confinement check, over an explicit filesystem state;
* the `/list-files` handler, including the `const path = parsedUrl.pathname`
  binding that shadows the `path` module inside the server callback.

JS strings are modelled by Lean `String`; `String.prototype.length` counts
UTF-16 code units, which we model explicitly (`jsLength`).  JS string
operations used by the agent (`includes`, `startsWith`, `toLowerCase`,
`split`) are modelled on `List Char` so that all definitions evaluate by
`decide` (ASCII model for `toLowerCase`, which is exact on the agent's
deny-list strings).
-/

/-- Number of UTF-16 code units a character occupies: the JS string length
contribution of one code point (1 below U+10000, else a surrogate pair). -/
def csize16 (c : Char) : Nat :=
  if c.toNat < 65536 then 1 else 2

/-- Model of JS `String.prototype.length`: UTF-16 code units. -/
def jsLength (s : String) : Nat :=
  s.data.foldl (fun n c => n + csize16 c) 0

/-- Number of bytes a character occupies in UTF-8. -/
def utf8CharSize (c : Char) : Nat :=
  if c.toNat < 128 then 1
  else if c.toNat < 2048 then 2
  else if c.toNat < 65536 then 3
  else 4

/-- Number of bytes written to disk for a string under the UTF-8 encoding
used by `fs.writeFileSync(fullPath, content, 'utf8')`. -/
def utf8Bytes (s : String) : Nat :=
  s.data.foldl (fun n c => n + utf8CharSize c) 0

/-- Model of JS `String.prototype.toLowerCase`, ASCII fragment (exact for
the agent's deny-list strings, which are ASCII). -/
def jsToLower (s : String) : String :=
  String.mk (s.data.map Char.toLower)

/-- Containment of `needle` as a contiguous substring of `hay`. -/
def hasSubstring (hay needle : List Char) : Bool :=
  match hay with
  | [] => needle.isEmpty
  | c :: rest => needle.isPrefixOf (c :: rest) || hasSubstring rest needle

/-- Model of JS `String.prototype.includes`. -/
def jsIncludes (hay needle : String) : Bool :=
  hasSubstring hay.data needle.data

/-- Model of JS `String.prototype.startsWith`. -/
def jsStartsWith (s pre : String) : Bool :=
  pre.data.isPrefixOf s.data

/-- Fixed deny-list of destructive command substrings
(`const dangerousCommands`, agent source). -/
def dangerousCommands : List String :=
  ["rm -rf", "del /f", "format", "fdisk", "dd if="]

/-- Translation of the deny-list test in the `/run` handler:
`dangerousCommands.some(d => command.toLowerCase().includes(d.toLowerCase()))`. -/
def isDangerous (command : String) : Bool :=
  dangerousCommands.any (fun d => jsIncludes (jsToLower command) (jsToLower d))

/-- Structured outcome of one executed command, as built by
`executeCommand`.  `exitCode` is `Option Int` because the close event of a
signal-killed child delivers `null`. -/
structure CommandResult where
  command : String
  output : String
  error : String
  exitCode : Option Int
  status : String
deriving DecidableEq, Repr

/-- Terminal event of a spawned child process: the close event with its
(possibly null) exit code and the accumulated stream buffers, the error
event, or a synchronous spawn exception. -/
inductive ProcEvent where
  | closed (out err : String) (code : Option Int)
  | errored (out err : String) (msg : String)
  | spawnEx (msg : String)
deriving DecidableEq, Repr

/-- Result built by the close-event handler of `executeCommand`
(`child.on('close', code => ...)`): exit code passed through verbatim,
status `success` exactly when `code === 0`. -/
def closeResult (command out err : String) (code : Option Int) : CommandResult :=
  { command := command
    output := out.trim
    error := err.trim
    exitCode := code
    status := if code = some 0 then "success" else "failed" }

/-- Result built by the error-event handler of `executeCommand`
(`child.on('error', ...)`). -/
def errorResult (command out : String) (msg : String) : CommandResult :=
  { command := command
    output := out.trim
    error := "Process error: " ++ msg
    exitCode := some (-1)
    status := "failed" }

/-- Result built by the catch branch of `executeCommand` when the spawn
call itself throws. -/
def spawnExResult (command msg : String) : CommandResult :=
  { command := command
    output := ""
    error := "Failed to execute command: " ++ msg
    exitCode := some (-1)
    status := "failed" }

/-- The promise returned by `executeCommand(command)` resolves with exactly
one result, determined by the first terminal event of the child process. -/
def executeCommand (command : String) (ev : ProcEvent) : CommandResult :=
  match ev with
  | ProcEvent.closed out err code => closeResult command out err code
  | ProcEvent.errored out _ msg => errorResult command out msg
  | ProcEvent.spawnEx msg => spawnExResult command msg

/-- Outcome of the `/run` handler after the request body has been parsed:
either an HTTP response is sent without executing anything, or
`executeCommand` is invoked on the command string. -/
inductive RunOutcome where
  | respond (statusCode : Nat) (error status : String)
  | execute (command : String)
deriving DecidableEq, Repr

/-- Translation of the `/run` request handler (post JSON parse): a missing
or non-string command gives 400; an empty string is falsy in
`!command` and also gives 400; a deny-listed command gives 403; otherwise
`executeCommand` runs. -/
def runHandler (command : Option String) : RunOutcome :=
  match command with
  | none => RunOutcome.respond 400 "Invalid request: command is required and must be a string" "failed"
  | some c =>
    if c = "" then
      RunOutcome.respond 400 "Invalid request: command is required and must be a string" "failed"
    else if isDangerous c then
      RunOutcome.respond 403 "Command rejected for security reasons" "failed"
    else
      RunOutcome.execute c

/-- On completion of an accepted command, the `/run` handler replies 200
with the CommandResult serialized verbatim. -/
def runComplete (command : String) (ev : ProcEvent) : Nat × CommandResult :=
  (200, executeCommand command ev)

/-- Model of JS `Map.prototype.set` on an association list: an existing key
has its value replaced in place, a new key is appended. -/
def setAssoc {α : Type} (l : List (String × α)) (k : String) (v : α) : List (String × α) :=
  if l.any (fun p => p.1 == k) then
    l.map (fun p => if p.1 == k then (k, v) else p)
  else
    l ++ [(k, v)]

/-- Model of JS `Map.prototype.get`. -/
def getAssoc {α : Type} (l : List (String × α)) (k : String) : Option α :=
  (l.find? (fun p => p.1 == k)).map (fun p => p.2)

/-- Model of JS `Map.prototype.has`. -/
def hasAssoc {α : Type} (l : List (String × α)) (k : String) : Bool :=
  l.any (fun p => p.1 == k)

/-- Model of JS `Map.prototype.delete` (removal of the key's entry). -/
def delAssoc {α : Type} (l : List (String × α)) (k : String) : List (String × α) :=
  l.filter (fun p => p.1 != k)

/-- The process registry `activeProcesses`: a process-wide `Map` from
handle identifier to the spawned child, the latter abstracted as a tag. -/
abbrev ProcRegistry : Type := List (String × Nat)

/-- Handle identifier generated at spawn:
`const processId = Date.now().toString()`, i.e. the spawn time in
milliseconds rendered in decimal. -/
def processId (spawnTimeMs : Nat) : String :=
  toString spawnTimeMs

/-- Registry insertion performed at spawn:
`activeProcesses.set(processId, child)`. -/
def spawnTrack (reg : ProcRegistry) (spawnTimeMs : Nat) (child : Nat) : ProcRegistry :=
  setAssoc reg (processId spawnTimeMs) child

/-- Registry removal performed by the close and error handlers:
`activeProcesses.delete(processId)`. -/
def untrack (reg : ProcRegistry) (pid : String) : ProcRegistry :=
  delAssoc reg pid

inductive Signal where
  | sigterm
  | sigkill
deriving DecidableEq, Repr

/-- Translation of the timeout escalation in `executeCommand`: when the
10-minute timer fires, the handle is looked up in the registry
(`activeProcesses.has(processId)`); if present, SIGTERM is sent and a
5-second timer is armed, whose callback looks the handle up again and, if
still present, sends SIGKILL.  `reg10` and `reg5` are the registry contents
at the respective instants; the returned list is the sequence of signals
sent to the child. -/
def timeoutEscalation (reg10 reg5 : ProcRegistry) (pid : String) : List Signal :=
  if hasAssoc reg10 pid then
    Signal.sigterm :: (if hasAssoc reg5 pid then [Signal.sigkill] else [])
  else
    []

/-- Model of the registry drain performed by the `/kill` handler: SIGTERM
to every tracked process, response reports the count; entries are not
removed. -/
def killAllStep (reg : ProcRegistry) : (List (String × Signal)) × Nat × ProcRegistry :=
  (reg.map (fun p => (p.1, Signal.sigterm)), reg.length, reg)

/-- An entry of a scanned directory: the agent's view of the filesystem
tree under the scan root (the result of `fs.readdirSync` with file
contents attached). -/
inductive FSEntry where
  | file (name content : String)
  | dir (name : String) (entries : List FSEntry)

/-- Fixed allow-list of project file extensions (`SUPPORTED_EXTENSIONS`). -/
def supportedExtensions : List String :=
  [".js", ".ts", ".jsx", ".tsx", ".json", ".css", ".scss", ".html", ".md", ".vue", ".py", ".php"]

/-- The skip test applied to every directory entry: hidden names and the
fixed set of build/dependency directory names. -/
def skipName (name : String) : Bool :=
  jsStartsWith name "." ||
  name == "node_modules" ||
  name == "dist" ||
  name == "build" ||
  name == ".next" ||
  name == "coverage"

/-- Index of the last '.' in a character list (offset by `i`). -/
def lastDotAux (cs : List Char) (i : Nat) : Option Nat :=
  match cs with
  | [] => none
  | c :: rest =>
    match lastDotAux rest (i + 1) with
    | some j => some j
    | none => if c = '.' then some i else none

/-- Model of `path.extname` on a bare entry name: the suffix from the last
dot, empty when there is no dot or the only dot is the leading one. -/
def extname (s : String) : String :=
  match lastDotAux s.data 0 with
  | none => ""
  | some 0 => ""
  | some i => String.mk (s.data.drop i)

/-- Record produced for one accepted file by `readProjectFiles`:
name, forward-slash relative path, content, size (`content.length`),
lowercased extension, containing directory (`path.dirname`). -/
structure FileRecord where
  name : String
  path : String
  content : String
  size : Nat
  extension : String
  directory : String
deriving DecidableEq, Repr

/-- Relative path of an entry: the scan prefix joined to its name
(`path.relative` of the joined path, forward-slash normalized; the scan
root itself has prefix `""`). -/
def childPath (pfx name : String) : String :=
  if pfx = "" then name else pfx ++ "/" ++ name

/-- Recursion core of `readProjectFiles`, structurally recursive on the
remaining depth budget `maxDepth - currentDepth` (one unit is consumed per
directory level, exactly as the source recursion increments
`currentDepth`).  A zero budget is the `currentDepth >= maxDepth` guard
returning the empty list.  `readProjectFiles_eq` below certifies that this
definition satisfies the source's recursion equation verbatim. -/
def readGo (pfx : String) (entries : List FSEntry) (fuel : Nat) : List FileRecord :=
  match fuel with
  | 0 => []
  | fuelLeft + 1 =>
    entries.flatMap (fun e =>
      match e with
      | FSEntry.dir name sub =>
        if skipName name then [] else readGo (childPath pfx name) sub fuelLeft
      | FSEntry.file name content =>
        if skipName name then []
        else
          let ext := jsToLower (extname name)
          if supportedExtensions.contains ext then
            if jsLength content ≤ 1024 * 1024 then
              [{ name := name
                 path := childPath pfx name
                 content := content
                 size := jsLength content
                 extension := ext
                 directory := if pfx = "" then "." else pfx }]
            else []
          else []
      )

/-- Translation of `readProjectFiles(dirPath, maxDepth = 3, currentDepth = 0)`:
returns `[]` once `currentDepth >= maxDepth`, otherwise walks the entries
in order, skipping hidden/build names, recursing into subdirectories with
`currentDepth + 1`, and emitting a record for every file whose lowercased
extension is allow-listed and whose JS string length is at most 1 MiB. -/
def readProjectFiles (pfx : String) (entries : List FSEntry) (maxDepth currentDepth : Nat) : List FileRecord :=
  readGo pfx entries (maxDepth - currentDepth)

structure ProjectStats where
  totalFiles : Nat
  totalSize : Nat
  directories : Nat
deriving DecidableEq, Repr

/-- Aggregate built by `getProjectStructure`: the flat file list plus
derived stats (count, total size, number of distinct directory keys of the
`filesByDirectory` grouping, root files keyed under `'.'`). -/
structure ProjectStructure where
  success : Bool
  files : List FileRecord
  stats : ProjectStats
deriving DecidableEq, Repr

/-- Directory key used by the `filesByDirectory` grouping:
`file.directory || '.'`. -/
def dirKey (f : FileRecord) : String :=
  if f.directory = "" then "." else f.directory

/-- Translation of `getProjectStructure(dirPath)`: scans with
`maxDepth = 3`, `currentDepth = 0` and derives the stats. -/
def getProjectStructure (entries : List FSEntry) : ProjectStructure :=
  let files := readProjectFiles "" entries 3 0
  { success := true
    files := files
    stats :=
      { totalFiles := files.length
        totalSize := files.foldl (fun n f => n + f.size) 0
        directories := ((files.map dirKey).eraseDups).length } }

/-- Split of a path string at '/' separators (model of splitting used by
POSIX path manipulation; a leading '/' yields a leading empty segment). -/
def splitSlashAux (cs : List Char) (acc : List Char) : List String :=
  match cs with
  | [] => [String.mk acc.reverse]
  | c :: rest =>
    if c = '/' then String.mk acc.reverse :: splitSlashAux rest []
    else splitSlashAux rest (c :: acc)

def splitSegs (s : String) : List String :=
  splitSlashAux s.data []

/-- Joining of path segments with '/'. -/
def joinSlash (segs : List String) : String :=
  match segs with
  | [] => ""
  | [s] => s
  | s :: rest => s ++ "/" ++ joinSlash rest

/-- Normalization pass of POSIX path resolution: empty and `.` segments
vanish, `..` pops the last kept segment (and is ignored at the root). -/
def normSegs (stack : List String) (segs : List String) : List String :=
  match segs with
  | [] => stack.reverse
  | seg :: rest =>
    if seg = "" || seg = "." then normSegs stack rest
    else if seg = ".." then normSegs stack.tail rest
    else normSegs (seg :: stack) rest

/-- Model of `path.resolve(cwd, p)` for an absolute `cwd` on POSIX: an
absolute `p` is normalized on its own, a relative one is joined to `cwd`
first. -/
def resolvePath (cwd p : String) : String :=
  let combined := if jsStartsWith p "/" then p else cwd ++ "/" ++ p
  "/" ++ joinSlash (normSegs [] (splitSegs combined))

/-- Model of `path.dirname` on a resolved absolute path. -/
def dirname (p : String) : String :=
  "/" ++ joinSlash (((splitSegs p).filter (fun s => s ≠ "")).dropLast)

/-- Chain of directory paths from the root down to `d` — the directories
`fs.mkdirSync(d, recursive)` guarantees to exist afterwards. -/
def ancestorsAux (base : String) (parts : List String) : List String :=
  match parts with
  | [] => []
  | s :: rest =>
    let nb := base ++ "/" ++ s
    nb :: ancestorsAux nb rest

def ancestors (d : String) : List String :=
  ancestorsAux "" ((splitSegs d).filter (fun s => s ≠ ""))

/-- Filesystem state seen by the file writer: the set of existing
directories and a map from absolute file path to content. -/
structure FS where
  dirs : List String
  files : List (String × String)
deriving DecidableEq, Repr

structure WriteResult where
  success : Bool
  path : String
  size : Nat
  errorMsg : Option String
deriving DecidableEq, Repr

/-- Translation of `writeProjectFile(filePath, content)`: resolve against
the ambient working directory, reject when the resolved path does not have
the working directory as a string prefix (`fullPath.startsWith(currentWorkingDir)`,
the throw being converted to a `success:false` result by the catch),
otherwise create the missing directories of `path.dirname(fullPath)`
(`fs.mkdirSync(dir, { recursive: true })`, guarded by `fs.existsSync(dir)`)
and write the content, overwriting any previous file; the reported size is
`content.length`. -/
def writeProjectFile (cwd : String) (fs : FS) (filePath content : String) : WriteResult × FS :=
  let full := resolvePath cwd filePath
  if jsStartsWith full cwd then
    let d := dirname full
    let fs1 :=
      if fs.dirs.contains d then fs
      else { fs with dirs := fs.dirs ++ (ancestors d).filter (fun a => !(fs.dirs.contains a)) }
    let fs2 := { fs1 with files := setAssoc fs1.files full content }
    ({ success := true, path := filePath, size := jsLength content, errorMsg := none }, fs2)
  else
    ({ success := false, path := filePath, size := 0,
       errorMsg := some "File path is outside of allowed directory" }, fs)

/-- The `/save-file` handler's use of the write result: 200 on success,
500 with the error message otherwise. -/
def saveFileHandler (cwd : String) (fs : FS) (filePath content : String) : Nat × FS :=
  let r := writeProjectFile cwd fs filePath content
  (if r.1.success then 200 else 500, r.2)

/-- Descendant test for directory confinement: `p` lies within `root` when
it is `root` itself or a path below it.  This is the canonical containment
the specification's confinement claim speaks about, as opposed to the raw
string-prefix test the code performs. -/
def isWithinDir (root p : String) : Bool :=
  p == root || jsStartsWith p (root ++ "/")

/-- Outcome of the existence/kind checks the `/list-files` handler runs on
the requested path (`fs.existsSync`, `fs.statSync(..).isDirectory()`). -/
inductive PathTarget where
  | missing
  | nondir
  | dir (entries : List FSEntry)

structure ListFilesResponse where
  statusCode : Nat
  status : String
  errorMsg : Option String
  body : Option ProjectStructure
deriving DecidableEq, Repr

/-- Translation of the `/list-files` handler, lines 338-396 of the agent
source.  Inside the server callback the binding
`const path = parsedUrl.pathname` shadows the `path` module, so the update
`currentWorkingDir = path.resolve(projectPath)` on the success path calls
`resolve` on a string; the resulting TypeError is swallowed by the
handler's try/catch, which replies 500 with the error message.  The
working directory is therefore never updated and the scan result is never
produced: a missing path gives 404, a non-directory 400, and an existing
directory always 500. -/
def listFilesHandler (cwd : String) (target : PathTarget) : String × ListFilesResponse :=
  match target with
  | PathTarget.missing =>
    (cwd, { statusCode := 404, status := "failed", errorMsg := some "Directory not found", body := none })
  | PathTarget.nondir =>
    (cwd, { statusCode := 400, status := "failed", errorMsg := some "Path is not a directory", body := none })
  | PathTarget.dir _ =>
    (cwd, { statusCode := 500, status := "failed",
            errorMsg := some "path.resolve is not a function", body := none })

/-- Directory of the end-to-end scenario: `a.js`, `b.css`, `.hidden`, and
`node_modules/ignored.js`. -/
def tmpProjEntries : List FSEntry :=
  [FSEntry.file "a.js" "ca",
   FSEntry.file "b.css" "cb",
   FSEntry.file ".hidden" "ch",
   FSEntry.dir "node_modules" [FSEntry.file "ignored.js" "ci"]]

/-- Directory tree five levels deep, one allow-listed file per level. -/
def deepTree : List FSEntry :=
  [FSEntry.file "f0.js" "x0",
   FSEntry.dir "d1"
     [FSEntry.file "f1.js" "x1",
      FSEntry.dir "d2"
        [FSEntry.file "f2.js" "x2",
         FSEntry.dir "d3"
           [FSEntry.file "f3.js" "x3",
            FSEntry.dir "d4"
              [FSEntry.file "f4.js" "x4"]]]]]

/-- Entries of the depth-3 subdirectory of `deepTree`. -/
def deepSub : List FSEntry :=
  [FSEntry.file "f3.js" "x3",
   FSEntry.dir "d4" [FSEntry.file "f4.js" "x4"]]

/-!
Helper lemmas: association-list map operations, the UTF-16/UTF-8 length
comparison, and the recursion-equation certificate for the depth-bounded
directory walk.
-/

theorem getAssoc_cons {α : Type} (x : String × α) (rest : List (String × α)) (k : String) :
    getAssoc (x :: rest) k = if x.1 == k then some x.2 else getAssoc rest k := by
  cases hx : x.1 == k with
  | true =>
    have h1 : List.find? (fun q => q.1 == k) (x :: rest) = some x :=
      List.find?_cons_of_pos rest hx
    unfold getAssoc
    rw [h1]
    simp
  | false =>
    have h1 : List.find? (fun q => q.1 == k) (x :: rest) = List.find? (fun q => q.1 == k) rest :=
      List.find?_cons_of_neg rest (by simp [hx])
    unfold getAssoc
    rw [h1]
    simp

theorem setAssoc_cons_of_neg {α : Type} (p : String × α) (t : List (String × α)) (k : String) (v : α)
    (hp : (p.1 == k) = false) : setAssoc (p :: t) k v = p :: setAssoc t k v := by
  have hh : (if (p.1 == k) = true then (k, v) else p) = p := by
    rw [if_neg]
    simp [hp]
  unfold setAssoc
  simp only [List.any_cons, hp, Bool.false_or]
  cases ha : t.any (fun q => q.1 == k) with
  | true =>
    simp [List.map_cons, hh]
    intro h
    rw [h] at hp
    simp at hp
  | false => simp

/-- Looking up the key just stored by `Map.set` yields the stored value. -/
theorem getAssoc_setAssoc {α : Type} (l : List (String × α)) (k : String) (v : α) :
    getAssoc (setAssoc l k v) k = some v := by
  induction l with
  | nil =>
    unfold setAssoc
    simp only [List.any_nil, Bool.false_eq_true, if_false, List.nil_append]
    rw [getAssoc_cons]
    simp
  | cons p t ih =>
    cases hp : p.1 == k with
    | true =>
      unfold setAssoc
      rw [if_pos (by simp [List.any_cons, hp])]
      rw [List.map_cons, if_pos hp, getAssoc_cons]
      simp
    | false =>
      rw [setAssoc_cons_of_neg p t k v hp, getAssoc_cons, if_neg (by simp [hp])]
      exact ih

/-- A key is present after `Map.set` stored it. -/
theorem hasAssoc_setAssoc {α : Type} (l : List (String × α)) (k : String) (v : α) :
    hasAssoc (setAssoc l k v) k = true := by
  have h := getAssoc_setAssoc l k v
  unfold getAssoc at h
  cases hf : (setAssoc l k v).find? (fun p => p.1 == k) with
  | none => rw [hf] at h; simp at h
  | some pr =>
    have h3 : (pr.1 == k) = true :=
      @List.find?_some (String × α) (fun q => q.1 == k) pr (setAssoc l k v) hf
    unfold hasAssoc
    rw [List.any_eq_true]
    exact ⟨pr, List.mem_of_find?_eq_some hf, h3⟩

/-- Storing to a present key replaces in place: the map does not grow. -/
theorem length_setAssoc_of_has {α : Type} (l : List (String × α)) (k : String) (v : α)
    (h : hasAssoc l k = true) : (setAssoc l k v).length = l.length := by
  unfold hasAssoc at h
  unfold setAssoc
  rw [if_pos h, List.length_map]

/-- On all-ASCII character lists the UTF-16 unit count and the UTF-8 byte
count agree (both are one per character). -/
theorem foldl_len_ascii (l : List Char) (n : Nat) (h : ∀ c ∈ l, c.toNat < 128) :
    l.foldl (fun n c => n + csize16 c) n = l.foldl (fun n c => n + utf8CharSize c) n := by
  induction l generalizing n with
  | nil => rfl
  | cons c t ih =>
    simp only [List.foldl_cons]
    have hc : c.toNat < 128 := h c (by simp)
    have he : csize16 c = utf8CharSize c := by
      unfold csize16 utf8CharSize
      rw [if_pos (by omega), if_pos (by omega)]
    rw [he]
    exact ih _ (fun x hx => h x (by simp [hx]))

/-- Certificate that `readProjectFiles` satisfies the recursion equation of
the source verbatim: return `[]` once `currentDepth >= maxDepth`, otherwise
walk the entries, skipping hidden/build names, recursing into directories
with `currentDepth + 1`, and emitting a record per accepted file. -/
theorem readProjectFiles_eq (pfx : String) (entries : List FSEntry) (maxDepth currentDepth : Nat) :
    readProjectFiles pfx entries maxDepth currentDepth =
      if maxDepth ≤ currentDepth then []
      else
        entries.flatMap (fun e =>
          match e with
          | FSEntry.dir name sub =>
            if skipName name then []
            else readProjectFiles (childPath pfx name) sub maxDepth (currentDepth + 1)
          | FSEntry.file name content =>
            if skipName name then []
            else
              let ext := jsToLower (extname name)
              if supportedExtensions.contains ext then
                if jsLength content ≤ 1024 * 1024 then
                  [{ name := name
                     path := childPath pfx name
                     content := content
                     size := jsLength content
                     extension := ext
                     directory := if pfx = "" then "." else pfx }]
                else []
              else []
          ) := by
  by_cases h : maxDepth ≤ currentDepth
  · rw [if_pos h]
    unfold readProjectFiles
    rw [Nat.sub_eq_zero_of_le h]
    rfl
  · rw [if_neg h]
    unfold readProjectFiles
    have hs : maxDepth - currentDepth = (maxDepth - (currentDepth + 1)) + 1 := by omega
    rw [hs]
    rfl




/-!
Claim theorems.
-/

/-- C1: the specification's end-to-end scenario says a
`GET /list-files?path=D` request on a directory `D` holding exactly
`a.js`, `b.css`, `.hidden` and `node_modules/ignored.js` answers 200 with
`files` exactly `[a.js, b.css]` and `stats.totalFiles = 2`.  The scanner
(`getProjectStructure`) indeed produces exactly those two records, which is
the evident intent of the handler; but the handler itself, because its
`path` binding shadows the `path` module, throws at
`currentWorkingDir = path.resolve(projectPath)` and answers 500 with no
body, never 200.  This theorem evaluates both facts at the scenario's
input. -/
theorem c1_listFiles_scenario_bug :
    (getProjectStructure tmpProjEntries).files.map FileRecord.name = ["a.js", "b.css"] ∧
    (getProjectStructure tmpProjEntries).stats.totalFiles = 2 ∧
    (listFilesHandler "/home/launch" (PathTarget.dir tmpProjEntries)).2.statusCode = 500 ∧
    (listFilesHandler "/home/launch" (PathTarget.dir tmpProjEntries)).2.status = "failed" ∧
    (listFilesHandler "/home/launch" (PathTarget.dir tmpProjEntries)).2.body = none := by
  decide

/-- C2: for every command string that contains no deny-listed substring
(case-insensitively), `executeCommand` resolves on the child's close event
with a CommandResult whose `exitCode` is exactly the code delivered by the
close event and whose `status` is `success` if and only if that code is
exactly 0. -/
theorem c2_executeCommand_exit_code (c out err : String) (code : Option Int)
    (hc : ∀ d ∈ dangerousCommands, jsIncludes (jsToLower c) (jsToLower d) = false) :
    (executeCommand c (ProcEvent.closed out err code)).exitCode = code ∧
    ((executeCommand c (ProcEvent.closed out err code)).status = "success" ↔ code = some 0) := by
  refine ⟨rfl, ?_⟩
  show (if code = some 0 then "success" else "failed") = "success" ↔ code = some 0
  by_cases h : code = some 0
  · simp [h]
  · simp [h]

theorem c2_executeCommand_exit_code_witness :
    (∀ d ∈ dangerousCommands, jsIncludes (jsToLower "echo hello") (jsToLower d) = false) ∧
    (executeCommand "echo hello" (ProcEvent.closed "hello" "" (some 0))).exitCode = some 0 ∧
    ((executeCommand "echo hello" (ProcEvent.closed "hello" "" (some 0))).status = "success" ↔ (some 0 : Option Int) = some 0) :=
  ⟨by decide,
   (c2_executeCommand_exit_code "echo hello" "hello" "" (some 0) (by decide)).1,
   (c2_executeCommand_exit_code "echo hello" "hello" "" (some 0) (by decide)).2⟩

/-- C3: every command containing a deny-listed substring under
case-insensitive matching is answered 403 with the fixed error body by the
`/run` handler, and `executeCommand` is never invoked for it. -/
theorem c3_run_denylist_rejected (c : String)
    (h : ∃ d ∈ dangerousCommands, jsIncludes (jsToLower c) (jsToLower d) = true) :
    runHandler (some c) = RunOutcome.respond 403 "Command rejected for security reasons" "failed" ∧
    ∀ s, runHandler (some c) ≠ RunOutcome.execute s := by
  obtain ⟨d, hd, hinc⟩ := h
  have hcne : ¬ c = "" := by
    intro hceq
    subst hceq
    simp [dangerousCommands] at hd
    rcases hd with rfl | rfl | rfl | rfl | rfl <;> exact absurd hinc (by decide)
  have hdang : isDangerous c = true := by
    unfold isDangerous
    rw [List.any_eq_true]
    exact ⟨d, hd, hinc⟩
  have hmain : runHandler (some c) = RunOutcome.respond 403 "Command rejected for security reasons" "failed" := by
    simp only [runHandler]
    rw [if_neg hcne, hdang]
    simp
  exact ⟨hmain, fun s hcontra => by rw [hmain] at hcontra; exact RunOutcome.noConfusion hcontra⟩

theorem c3_run_denylist_rejected_witness :
    (∃ d ∈ dangerousCommands, jsIncludes (jsToLower "rm -rf /") (jsToLower d) = true) ∧
    runHandler (some "rm -rf /") = RunOutcome.respond 403 "Command rejected for security reasons" "failed" :=
  ⟨⟨"rm -rf", by decide, by decide⟩,
   (c3_run_denylist_rejected "rm -rf /" ⟨"rm -rf", by decide, by decide⟩).1⟩

/-- C4 counterexample: the claim says every save-file request whose path
resolves outside the working directory is rejected.  With working
directory `/home/user`, the path `../user2/pwn.txt` resolves to
`/home/user2/pwn.txt`, which lies outside `/home/user`; yet the
string-prefix check accepts it, the write succeeds (HTTP 200) and the file
is created — the sibling-directory prefix bypass. -/
theorem c4_confinement_counterexample :
    isWithinDir "/home/user" (resolvePath "/home/user" "../user2/pwn.txt") = false ∧
    (writeProjectFile "/home/user" ⟨["/home", "/home/user"], []⟩ "../user2/pwn.txt" "x").1.success = true ∧
    getAssoc (writeProjectFile "/home/user" ⟨["/home", "/home/user"], []⟩ "../user2/pwn.txt" "x").2.files
      (resolvePath "/home/user" "../user2/pwn.txt") = some "x" ∧
    (saveFileHandler "/home/user" ⟨["/home", "/home/user"], []⟩ "../user2/pwn.txt" "x").1 = 200 := by
  decide

/-- C4 amended: a save-file request is rejected (success false, HTTP 500,
filesystem untouched) exactly when the resolved absolute path does not
have the current working directory as a string prefix; every request
passing the prefix check succeeds (HTTP 200), writes the content at the
resolved path (overwriting any previous file), and when the target's
parent directory did not exist, every directory on the chain down to it
exists afterwards. -/
theorem c4_write_prefix_confinement (cwd : String) (fs : FS) (filePath content : String) :
    (jsStartsWith (resolvePath cwd filePath) cwd = false →
      (writeProjectFile cwd fs filePath content).1.success = false ∧
      (writeProjectFile cwd fs filePath content).2 = fs ∧
      (saveFileHandler cwd fs filePath content).1 = 500) ∧
    (jsStartsWith (resolvePath cwd filePath) cwd = true →
      (writeProjectFile cwd fs filePath content).1.success = true ∧
      (saveFileHandler cwd fs filePath content).1 = 200 ∧
      getAssoc (writeProjectFile cwd fs filePath content).2.files (resolvePath cwd filePath) = some content ∧
      (fs.dirs.contains (dirname (resolvePath cwd filePath)) = false →
        ∀ a ∈ ancestors (dirname (resolvePath cwd filePath)),
          a ∈ (writeProjectFile cwd fs filePath content).2.dirs)) := by
  constructor
  · intro h
    refine ⟨?_, ?_, ?_⟩ <;> simp [writeProjectFile, saveFileHandler, h]
  · intro h
    refine ⟨?_, ?_, ?_, ?_⟩
    · simp [writeProjectFile, h]
    · simp [writeProjectFile, saveFileHandler, h]
    · simp only [writeProjectFile, h]
      simp only [if_true]
      exact getAssoc_setAssoc _ _ _
    · intro hnd a ha
      simp only [writeProjectFile, h, hnd]
      simp only [if_true, Bool.false_eq_true, if_false]
      by_cases hc : a ∈ fs.dirs
      · exact List.mem_append_left _ hc
      · refine List.mem_append_right _ (List.mem_filter.mpr ⟨ha, ?_⟩)
        simpa using hc

theorem c4_write_prefix_confinement_witness :
    jsStartsWith (resolvePath "/w" "a/b/c.txt") "/w" = true ∧
    (writeProjectFile "/w" ⟨["/w"], []⟩ "a/b/c.txt" "hi").1.success = true ∧
    getAssoc (writeProjectFile "/w" ⟨["/w"], []⟩ "a/b/c.txt" "hi").2.files (resolvePath "/w" "a/b/c.txt") = some "hi" ∧
    "/w/a/b" ∈ (writeProjectFile "/w" ⟨["/w"], []⟩ "a/b/c.txt" "hi").2.dirs :=
  ⟨by decide,
   ((c4_write_prefix_confinement "/w" ⟨["/w"], []⟩ "a/b/c.txt" "hi").2 (by decide)).1,
   ((c4_write_prefix_confinement "/w" ⟨["/w"], []⟩ "a/b/c.txt" "hi").2 (by decide)).2.2.1,
   ((c4_write_prefix_confinement "/w" ⟨["/w"], []⟩ "a/b/c.txt" "hi").2 (by decide)).2.2.2 (by decide) "/w/a/b" (by decide)⟩

/-- C5: the claim says a successful list-files request updates the
ambient working directory to the scan root.  In the code the update
statement `currentWorkingDir = path.resolve(projectPath)` is the very call
that throws (the `path` module is shadowed by the URL pathname string), so
no list-files request ever completes successfully: on every input the
handler leaves the working directory unchanged and answers with a status
other than 200. -/
theorem c5_listFiles_cwd_never_updated (cwd : String) (target : PathTarget) :
    (listFilesHandler cwd target).1 = cwd ∧
    (listFilesHandler cwd target).2.statusCode ≠ 200 := by
  cases target <;> exact ⟨rfl, by simp [listFilesHandler]⟩

theorem c5_listFiles_cwd_never_updated_witness :
    (listFilesHandler "/home/launch" (PathTarget.dir tmpProjEntries)).1 = "/home/launch" ∧
    (listFilesHandler "/home/launch" (PathTarget.dir tmpProjEntries)).2.statusCode ≠ 200 :=
  ⟨(c5_listFiles_cwd_never_updated "/home/launch" (PathTarget.dir tmpProjEntries)).1,
   (c5_listFiles_cwd_never_updated "/home/launch" (PathTarget.dir tmpProjEntries)).2⟩

/-- C6: a process still tracked in the registry when the 10-minute timer
fires is sent SIGTERM; if it is still tracked when the follow-up 5-second
timer fires, the signals sent are exactly SIGTERM then SIGKILL. -/
theorem c6_timeout_escalation (reg10 reg5 : ProcRegistry) (pid : String)
    (h10 : hasAssoc reg10 pid = true) :
    Signal.sigterm ∈ timeoutEscalation reg10 reg5 pid ∧
    (hasAssoc reg5 pid = true → timeoutEscalation reg10 reg5 pid = [Signal.sigterm, Signal.sigkill]) := by
  unfold timeoutEscalation
  rw [h10]
  constructor
  · simp
  · intro h5
    rw [h5]
    simp

theorem c6_timeout_escalation_witness :
    hasAssoc [("1000", 7)] "1000" = true ∧
    Signal.sigterm ∈ timeoutEscalation [("1000", 7)] [("1000", 7)] "1000" ∧
    timeoutEscalation [("1000", 7)] [("1000", 7)] "1000" = [Signal.sigterm, Signal.sigkill] :=
  ⟨by decide,
   (c6_timeout_escalation [("1000", 7)] [("1000", 7)] "1000" (by decide)).1,
   (c6_timeout_escalation [("1000", 7)] [("1000", 7)] "1000" (by decide)).2 (by decide)⟩

/-- C7 counterexample: the claim says identifiers are unique per spawn and
insertions never overwrite another live process's entry.  Two distinct
spawns (children 1 and 2) in the same millisecond 1000 both get identifier
`"1000"`: after the second insertion the registry holds only child 2 and
child 1's entry is gone, refuting the claim at this concrete input. -/
theorem c7_registry_overwrite_counterexample :
    spawnTrack (spawnTrack [] 1000 1) 1000 2 = [("1000", 2)] ∧
    ("1000", 1) ∈ spawnTrack [] 1000 1 ∧
    ("1000", 1) ∉ spawnTrack (spawnTrack [] 1000 1) 1000 2 := by
  decide

/-- C7 amended: identifiers are the spawn time in milliseconds rendered as
a string, so they are not unique per spawn: any two spawns tracked in the
same millisecond share one identifier, and the later registry insertion
replaces the earlier process's entry in place (the registry does not
grow). -/
theorem c7_same_ms_spawn_overwrites (reg : ProcRegistry) (t c1 c2 : Nat) :
    getAssoc (spawnTrack (spawnTrack reg t c1) t c2) (processId t) = some c2 ∧
    (spawnTrack (spawnTrack reg t c1) t c2).length = (spawnTrack reg t c1).length := by
  unfold spawnTrack
  exact ⟨getAssoc_setAssoc _ _ _,
    length_setAssoc_of_has _ _ _ (hasAssoc_setAssoc _ _ _)⟩

/-- C8: the scan never recurses past the configured maximum depth: every
call with `currentDepth >= maxDepth` returns the empty list; the root call
of `getProjectStructure` starts at depth 0 with maxDepth 3; and on a
directory tree five levels deep scanned at maxDepth 3, exactly the files
at depth 0, 1 and 2 appear — those at depth 3 and 4 are absent. -/
theorem c8_depth_policy :
    (∀ pfx entries maxDepth currentDepth, maxDepth ≤ currentDepth →
      readProjectFiles pfx entries maxDepth currentDepth = []) ∧
    (∀ entries, (getProjectStructure entries).files = readProjectFiles "" entries 3 0) ∧
    (readProjectFiles "" deepTree 3 0).map FileRecord.path = ["f0.js", "d1/f1.js", "d1/d2/f2.js"] ∧
    "d1/d2/d3/f3.js" ∉ (readProjectFiles "" deepTree 3 0).map FileRecord.path ∧
    "d1/d2/d3/d4/f4.js" ∉ (readProjectFiles "" deepTree 3 0).map FileRecord.path := by
  refine ⟨?_, fun entries => rfl, by decide, by decide, by decide⟩
  intro pfx entries maxDepth currentDepth h
  unfold readProjectFiles
  rw [Nat.sub_eq_zero_of_le h]
  rfl

theorem c8_depth_policy_witness :
    3 ≤ 3 ∧ readProjectFiles "d1/d2/d3" deepSub 3 3 = [] :=
  ⟨by decide, c8_depth_policy.1 "d1/d2/d3" deepSub 3 3 (by decide)⟩

/-- C9 counterexample: the claim says the reported size equals the number
of bytes written under UTF-8.  For content `"é"` the accepted write
reports `size = 1` (`content.length`, one UTF-16 unit) while the UTF-8
encoding written to disk is 2 bytes. -/
theorem c9_size_not_utf8_bytes_counterexample :
    (writeProjectFile "/w" ⟨["/w"], []⟩ "f.txt" "é").1.success = true ∧
    (writeProjectFile "/w" ⟨["/w"], []⟩ "f.txt" "é").1.size = 1 ∧
    utf8Bytes "é" = 2 ∧
    ¬ (writeProjectFile "/w" ⟨["/w"], []⟩ "f.txt" "é").1.size = utf8Bytes "é" := by
  decide

/-- C9 amended: on success the reported size equals `content.length`, the
number of UTF-16 code units of the content string; this coincides with the
UTF-8 byte count written to disk whenever the content is pure ASCII. -/
theorem c9_size_is_js_length (cwd : String) (fs : FS) (filePath content : String)
    (h : jsStartsWith (resolvePath cwd filePath) cwd = true) :
    (writeProjectFile cwd fs filePath content).1.size = jsLength content ∧
    ((∀ ch ∈ content.data, ch.toNat < 128) → jsLength content = utf8Bytes content) := by
  constructor
  · simp [writeProjectFile, h]
  · intro hascii
    unfold jsLength utf8Bytes
    exact foldl_len_ascii content.data 0 hascii

theorem c9_size_is_js_length_witness :
    jsStartsWith (resolvePath "/w" "f.txt") "/w" = true ∧
    (writeProjectFile "/w" ⟨["/w"], []⟩ "f.txt" "hi").1.size = jsLength "hi" ∧
    jsLength "hi" = utf8Bytes "hi" :=
  ⟨by decide,
   (c9_size_is_js_length "/w" ⟨["/w"], []⟩ "f.txt" "hi" (by decide)).1,
   (c9_size_is_js_length "/w" ⟨["/w"], []⟩ "f.txt" "hi" (by decide)).2 (by decide)⟩

/-- C10: when the close event delivers a null exit code (child killed by a
signal, for example after the timeout escalation), `executeCommand`
resolves with `exitCode` null — not an integer — and status `failed`, and
the `/run` endpoint still replies 200 with that result verbatim, so the
response's exitCode field is not guaranteed to be a number. -/
theorem c10_null_exit_code_failed (c out err : String) :
    (runComplete c (ProcEvent.closed out err none)).2.exitCode = none ∧
    (runComplete c (ProcEvent.closed out err none)).2.status = "failed" ∧
    (runComplete c (ProcEvent.closed out err none)).1 = 200 := by
  refine ⟨rfl, ?_, rfl⟩
  show (if (none : Option Int) = some 0 then "success" else "failed") = "failed"
  simp
